import Mathlib

/-!
Shallow embedding of the three core components of libftpp
(`data_structures.hpp`, `design_patterns.hpp`):

* `DataBuffer` — the binary serialization buffer (`std::vector<char> buffer`),
  with the fixed-size `operator<<`/`operator>>` pair and the string overloads;
* `StateMachine` — the finite-state machine (`currentState`, `stateActions`,
  `transitions`, `states`);
* `Pool` — the object pool (`storage`, FIFO queue `available`, inner class
  `Object` with move construction and a releasing destructor).

Bytes are modelled as `Nat`; a fixed-size C++ value of type `T` is modelled by
its `sizeof(T)`-byte raw representation (`memcpy` is the identity on that
representation).  A C++ function that can throw is modelled as returning a
pair of an `Except String` outcome (the `what()` string of the thrown
`std::runtime_error`) and the post-call state of the object, since in C++ the
object survives the throw.  `std::map` is modelled by an association list with
at most one entry per key; `std::function` actions are opaque tokens of a type
`A`, and executing actions is modelled by returning the list of tokens run.
-/

namespace Libftpp

/-- Association-list model of `std::map` lookup (`find`): the value stored for
a key, if present. -/
def mapFind {K V : Type} [DecidableEq K] : List (K × V) → K → Option V
  | [], _ => none
  | (k, v) :: rest, key => if k = key then some v else mapFind rest key

/-- Association-list model of `std::map` insert-or-assign (`m[k] = v`):
overwrites the entry when the key is present, appends it otherwise. -/
def mapInsert {K V : Type} [DecidableEq K] : List (K × V) → K → V → List (K × V)
  | [], key, val => [(key, val)]
  | (k, v) :: rest, key, val =>
    if k = key then (key, val) :: rest else (k, v) :: mapInsert rest key val

/-! ## DataBuffer (`data_structures.hpp`, lines 146–213) -/

/-- Model of `class DataBuffer`: the member `std::vector<char> buffer`. -/
structure DataBuffer where
  buffer : List Nat
deriving DecidableEq

namespace DataBuffer

/-- A freshly constructed `DataBuffer` (empty vector). -/
def empty : DataBuffer := ⟨[]⟩

/-- Model of `template<typename T> DataBuffer& operator<<(const T& data)`:
resizes by `sizeof(T)` and `memcpy`s the raw representation `v` of `data`
(with `v.length = sizeof(T)`) at the tail. -/
def write (b : DataBuffer) (v : List Nat) : DataBuffer :=
  ⟨b.buffer ++ v⟩

/-- Model of `template<typename T> DataBuffer& operator>>(T& data)` for a type
with `sizeof(T) = k`: if `buffer.size() < k` it throws `"Buffer underflow"`
leaving the vector untouched; otherwise it `memcpy`s the first `k` bytes out
and erases them from the front. -/
def read (b : DataBuffer) (k : Nat) : Except String (List Nat) × DataBuffer :=
  if b.buffer.length < k then (.error "Buffer underflow", b)
  else (.ok (b.buffer.take k), ⟨b.buffer.drop k⟩)

/-- Byte width of `size_t` on the host: the length prefix written by the
string overload of `operator<<` is `sizeof(size_t) = 8` raw bytes. -/
def sizeofSizeT : Nat := 8

/-- Little-endian `k`-byte raw representation of an unsigned integer, as
`memcpy` lays out a `size_t` value on the host. -/
def natToBytesLE : Nat → Nat → List Nat
  | _, 0 => []
  | n, k + 1 => n % 256 :: natToBytesLE (n / 256) k

/-- Reinterpretation of little-endian bytes as an unsigned integer (the
reverse `memcpy`). -/
def bytesToNatLE : List Nat → Nat
  | [] => 0
  | b :: rest => b + 256 * bytesToNatLE rest

/-- Model of `DataBuffer& operator<<(const std::string& str)`: writes
`len = str.length()` through the fixed-size operator, then appends the `len`
raw characters.  Text is modelled by its byte sequence `s`. -/
def writeText (b : DataBuffer) (s : List Nat) : DataBuffer :=
  write (write b (natToBytesLE s.length sizeofSizeT)) s

/-- Model of `DataBuffer& operator>>(std::string& str)`: first `*this >> len`
(which on success has already erased the `sizeof(size_t)` prefix bytes), then
throws `"Buffer underflow"` if fewer than `len` bytes remain, else assigns the
first `len` bytes to `str` and erases them. -/
def readText (b : DataBuffer) : Except String (List Nat) × DataBuffer :=
  match read b sizeofSizeT with
  | (.error e, b1) => (.error e, b1)
  | (.ok lenBytes, b1) =>
    let len := bytesToNatLE lenBytes
    if b1.buffer.length < len then (.error "Buffer underflow", b1)
    else (.ok (b1.buffer.take len), ⟨b1.buffer.drop len⟩)

/-- A sequence of fixed-size writes `buf << v1 << v2 << ... << vn`. -/
def writeSeq (b : DataBuffer) (vs : List (List Nat)) : DataBuffer :=
  vs.foldl write b

/-- A sequence of fixed-size reads `buf >> x1 >> x2 >> ... >> xn` for types of
sizes `ks`; stops at the first throw, like the C++ exception would. -/
def readSeq : DataBuffer → List Nat → Except String (List (List Nat)) × DataBuffer
  | b, [] => (.ok [], b)
  | b, k :: ks =>
    match read b k with
    | (.error e, b1) => (.error e, b1)
    | (.ok v, b1) =>
      match readSeq b1 ks with
      | (.error e, b2) => (.error e, b2)
      | (.ok vs, b2) => (.ok (v :: vs), b2)

end DataBuffer

/-! ## StateMachine (`design_patterns.hpp`, lines 161–260) -/

/-- Model of `template<typename TState> class StateMachine`; `S` is the state
token type `TState`, `A` is an opaque token type for the
`std::function<void()>` lambdas. -/
structure StateMachine (S A : Type) where
  currentState : S
  stateActions : List (S × A)
  transitions : List ((S × S) × A)
  states : List (S × Bool)
deriving DecidableEq

namespace StateMachine

variable {S A : Type} [DecidableEq S]

/-- Model of `std::map::operator[]` on the `states` map in a read position
(`states[s]` inside a condition): returns the stored value, default-inserting
`false` for a missing key, together with the possibly-updated map. -/
def statesSubscript (st : List (S × Bool)) (s : S) : Bool × List (S × Bool) :=
  match mapFind st s with
  | some v => (v, st)
  | none => (false, mapInsert st s false)

/-- Model of `void addState(const TState& state)`: `states[state] = true`. -/
def addState (m : StateMachine S A) (s : S) : StateMachine S A :=
  { m with states := mapInsert m.states s true }

/-- Model of `void addTransition(startState, finalState, lambda)`:
`if (!states[startState] || !states[finalState]) throw "State not registered"`
— with the subscripts default-inserting missing keys and `||` evaluated
short-circuit — else `transitions[{startState, finalState}] = lambda`. -/
def addTransition (m : StateMachine S A) (startState finalState : S) (lambda : A) :
    Except String Unit × StateMachine S A :=
  let r1 := statesSubscript m.states startState
  if r1.1 = false then (.error "State not registered", { m with states := r1.2 })
  else
    let r2 := statesSubscript r1.2 finalState
    if r2.1 = false then (.error "State not registered", { m with states := r2.2 })
    else
      (.ok (),
        { m with
          states := r2.2
          transitions := mapInsert m.transitions (startState, finalState) lambda })

/-- Model of `void addAction(state, lambda)`: `if (!states[state]) throw
"State not registered"` else `stateActions[state] = lambda`. -/
def addAction (m : StateMachine S A) (s : S) (lambda : A) :
    Except String Unit × StateMachine S A :=
  let r := statesSubscript m.states s
  if r.1 = false then (.error "State not registered", { m with states := r.2 })
  else
    (.ok (),
      { m with
        states := r.2
        stateActions := mapInsert m.stateActions s lambda })

/-- Model of `void transitionTo(const TState& state)`: looks up
`transitions.find({currentState, state})`, throws `"Invalid transition"` when
absent, else runs the found lambda and sets `currentState = state`.  The
middle component is the list of action tokens executed, in order. -/
def transitionTo (m : StateMachine S A) (state : S) :
    Except String Unit × List A × StateMachine S A :=
  match mapFind m.transitions (m.currentState, state) with
  | none => (.error "Invalid transition", [], m)
  | some lambda => (.ok (), [lambda], { m with currentState := state })

/-- Model of `void update()`: looks up `stateActions.find(currentState)`,
throws `"No action for current state"` when absent, else runs the found
lambda.  The middle component is the list of action tokens executed; the
machine itself is never mutated by `update`. -/
def update (m : StateMachine S A) :
    Except String Unit × List A × StateMachine S A :=
  match mapFind m.stateActions m.currentState with
  | none => (.error "No action for current state", [], m)
  | some lambda => (.ok (), [lambda], m)

/-- Model of `bool hasState(const TState& state) const`:
`states.find(state) != states.end()`. -/
def hasState (m : StateMachine S A) (s : S) : Bool :=
  (mapFind m.states s).isSome

/-- Model of `bool hasTransition(from, to) const`:
`transitions.find({from, to}) != transitions.end()`. -/
def hasTransition (m : StateMachine S A) (f t : S) : Bool :=
  (mapFind m.transitions (f, t)).isSome

/-- The keys of a `states` map whose stored flag is `true`: exactly the state
tokens that some `addState` call has registered. -/
def trueKeys (st : List (S × Bool)) : List S :=
  (st.filter (fun p => p.2)).map (fun p => p.1)

/-- The flag stored for `s` in a `states` map, `false` when the key is absent:
`s` has been registered by `addState` exactly when this is `true` (keys that
only a failed `addTransition`/`addAction` inserted carry `false`). -/
def flagOf (st : List (S × Bool)) (s : S) : Bool :=
  match mapFind st s with
  | some v => v
  | none => false

end StateMachine

/-! ## Pool (`data_structures.hpp`, lines 22–144) -/

/-- Model of `template<typename TType> class Pool`: `storage` is the vector of
owned slots (the pointed-to values), `available` the FIFO queue of free
indices with its front at the list head and pushes appended at the tail. -/
structure Pool (T : Type) where
  storage : List T
  available : List Nat
deriving DecidableEq

/-- Model of `Pool::Object`: `poolPtr` records whether the `pool` pointer is
non-null (a moved-from `Object` has it null), `index` the slot index. -/
structure PoolObject where
  poolPtr : Bool
  index : Nat
deriving DecidableEq

namespace Pool

variable {T : Type}

/-- One iteration of the `while` loop of `resize`: `storage.push_back` of a
default-constructed value `dflt` and `available.push(storage.size() - 1)`,
repeated `k` times. -/
def resizeLoop (p : Pool T) (dflt : T) : Nat → Pool T
  | 0 => p
  | k + 1 => resizeLoop ⟨p.storage ++ [dflt], p.available ++ [p.storage.length]⟩ dflt k

/-- Model of `void resize(const size_t& numberOfObjectStored)`: the loop
`while (storage.size() < n)` runs exactly `n - storage.size()` iterations,
each pushing one default-constructed slot and its index. -/
def resize (p : Pool T) (dflt : T) (n : Nat) : Pool T :=
  resizeLoop p dflt (n - p.storage.length)

/-- Model of `Object acquire(TArgs&&... p_args)`: throws `"Pool is empty"`
when `available` is empty; otherwise pops the front index, reconstructs the
slot there (`storage[index] = make_unique<TType>(args...)` — `constructed` is
the value the forwarded arguments build), and returns an `Object` bound to
that index. -/
def acquire (p : Pool T) (constructed : T) : Except String PoolObject × Pool T :=
  match p.available with
  | [] => (.error "Pool is empty", p)
  | index :: rest =>
    (.ok ⟨true, index⟩, ⟨p.storage.set index constructed, rest⟩)

/-- Model of `~Object()`: `if (pool) pool->available.push(index)`. -/
def destroyObject (p : Pool T) (o : PoolObject) : Pool T :=
  if o.poolPtr then ⟨p.storage, p.available ++ [o.index]⟩ else p

/-- Model of the move constructor `Object(Object&& other)`: the new object
copies `pool` and `index`, and `other.pool = nullptr`.  Returns (moved-to,
moved-from). -/
def moveObject (o : PoolObject) : PoolObject × PoolObject :=
  (⟨o.poolPtr, o.index⟩, ⟨false, o.index⟩)

/-- Client-visible operations on a pool, for whole-lifecycle invariants:
growing capacity, acquiring a lease, and destroying the `j`-th outstanding
lease (leases may be released in any order). -/
inductive Op (T : Type) where
  | grow (n : Nat) (dflt : T)
  | take (constructed : T)
  | release (j : Nat)

/-- A pool together with the indices held by its live (non-moved-from)
outstanding leases, in order of acquisition. -/
structure System (T : Type) where
  pool : Pool T
  leases : List Nat

/-- One client operation applied to the system: `grow` calls `resize`, `take`
calls `acquire` and records the lease on success, `release j` destroys the
`j`-th outstanding lease (a no-op when there is no such lease). -/
def step (sys : System T) : Op T → System T
  | .grow n dflt => ⟨resize sys.pool dflt n, sys.leases⟩
  | .take c =>
    match acquire sys.pool c with
    | (.ok o, p1) => ⟨p1, sys.leases ++ [o.index]⟩
    | (.error _, p1) => ⟨p1, sys.leases⟩
  | .release j =>
    match sys.leases.get? j with
    | some i => ⟨destroyObject sys.pool ⟨true, i⟩, sys.leases.eraseIdx j⟩
    | none => sys

/-- Running a sequence of client operations from a freshly constructed
(empty) pool with no outstanding leases. -/
def run (ops : List (Op T)) : System T :=
  ops.foldl step ⟨⟨[], []⟩, []⟩

/-- The slot-partition invariant: the free queue and the outstanding leases
together hold every slot index `0 .. storage.length - 1` exactly once. -/
def partitioned (sys : System T) : Prop :=
  (sys.pool.available ++ sys.leases).Perm (List.range sys.pool.storage.length)

end Pool

/-! ## Theorems -/

open DataBuffer StateMachine Pool

/-! ### DataBuffer helper lemmas -/

theorem read_exact (v rest : List Nat) :
    DataBuffer.read ⟨v ++ rest⟩ v.length = (.ok v, ⟨rest⟩) := by
  have h : ¬ (v ++ rest).length < v.length := by
    rw [List.length_append]; omega
  simp [DataBuffer.read, h, List.take_left, List.drop_left]

theorem read_split (b : DataBuffer) (k : Nat) :
    (b.buffer.length < k ∧ DataBuffer.read b k = (.error "Buffer underflow", b)) ∨
    (¬ b.buffer.length < k ∧
      DataBuffer.read b k = (.ok (b.buffer.take k), ⟨b.buffer.drop k⟩)) := by
  by_cases h : b.buffer.length < k <;> simp [DataBuffer.read, h]

theorem writeSeq_eq : ∀ (vs : List (List Nat)) (b : DataBuffer),
    writeSeq b vs = ⟨b.buffer ++ vs.flatten⟩
  | [], b => by simp [writeSeq]
  | v :: vs, b => by
    show writeSeq (write b v) vs = _
    rw [writeSeq_eq vs (write b v)]
    simp [write, List.append_assoc]

theorem readSeq_join : ∀ (vs : List (List Nat)) (tail : List Nat),
    readSeq ⟨vs.flatten ++ tail⟩ (vs.map List.length) = (.ok vs, ⟨tail⟩)
  | [], tail => by simp [readSeq]
  | v :: vs, tail => by
    have h1 : ((v :: vs).flatten ++ tail) = v ++ (vs.flatten ++ tail) := by
      simp [List.append_assoc]
    show readSeq ⟨(v :: vs).flatten ++ tail⟩ (v.length :: vs.map List.length) = _
    rw [h1]
    unfold readSeq
    rw [read_exact v (vs.flatten ++ tail)]
    simp [readSeq_join vs tail]

theorem length_natToBytesLE : ∀ (n k : Nat), (natToBytesLE n k).length = k
  | _, 0 => rfl
  | n, k + 1 => by simp [natToBytesLE, length_natToBytesLE (n / 256) k]

theorem bytesToNatLE_natToBytesLE : ∀ (k n : Nat), n < 256 ^ k →
    bytesToNatLE (natToBytesLE n k) = n
  | 0, n, h => by
    simp [natToBytesLE, bytesToNatLE]
    omega
  | k + 1, n, h => by
    have hd : n / 256 < 256 ^ k := by
      rw [Nat.div_lt_iff_lt_mul (by norm_num)]
      calc n < 256 ^ (k + 1) := h
      _ = 256 ^ k * 256 := by ring
    simp [natToBytesLE, bytesToNatLE, bytesToNatLE_natToBytesLE k (n / 256) hd]
    omega

/-! ### StateMachine helper lemmas -/

theorem mapFind_mapInsert {K V : Type} [DecidableEq K] :
    ∀ (m : List (K × V)) (k key : K) (v : V),
    mapFind (mapInsert m k v) key = if k = key then some v else mapFind m key
  | [], k, key, v => by simp [mapInsert, mapFind]
  | (k1, v1) :: rest, k, key, v => by
    by_cases h1 : k1 = k
    · subst h1
      by_cases h2 : k1 = key
      · subst h2; simp [mapInsert, mapFind]
      · simp [mapInsert, mapFind, h2]
    · by_cases h2 : k1 = key
      · subst h2
        have h3 : ¬ k = k1 := fun hh => h1 hh.symm
        simp [mapInsert, mapFind, h1, h3]
      · simp [mapInsert, mapFind, h1, h2, mapFind_mapInsert rest k key v]

theorem statesSubscript_fst {S : Type} [DecidableEq S] (st : List (S × Bool)) (s : S) :
    (statesSubscript st s).1 = flagOf st s := by
  unfold statesSubscript flagOf
  cases h : mapFind st s <;> simp [h]

theorem mapFind_statesSubscript_self {S : Type} [DecidableEq S]
    (st : List (S × Bool)) (s : S) :
    mapFind (statesSubscript st s).2 s = some (flagOf st s) := by
  unfold statesSubscript flagOf
  cases h : mapFind st s with
  | none => simp [h, mapFind_mapInsert]
  | some v => simp [h]

theorem flagOf_statesSubscript {S : Type} [DecidableEq S]
    (st : List (S × Bool)) (s x : S) :
    flagOf (statesSubscript st s).2 x = flagOf st x := by
  unfold statesSubscript
  cases h : mapFind st s with
  | some v => rfl
  | none =>
    unfold flagOf
    rw [mapFind_mapInsert]
    by_cases hx : s = x
    · subst hx; simp [h]
    · simp [hx]

theorem statesSubscript_of_flag_true {S : Type} [DecidableEq S]
    (st : List (S × Bool)) (t : S) (h : flagOf st t = true) :
    statesSubscript st t = (true, st) := by
  unfold flagOf at h
  unfold statesSubscript
  cases hf : mapFind st t with
  | none => rw [hf] at h; simp at h
  | some v => rw [hf] at h; simp at h; simp [hf, h]

theorem trueKeys_mapInsert_false {S : Type} [DecidableEq S] :
    ∀ (st : List (S × Bool)) (s : S), mapFind st s = none →
    trueKeys (mapInsert st s false) = trueKeys st
  | [], s, _ => by simp [mapInsert, trueKeys]
  | (k1, b1) :: rest, s, h => by
    have hk : ¬ k1 = s := by
      intro hh
      simp [mapFind, hh] at h
    have hr : mapFind rest s = none := by
      simpa [mapFind, hk] using h
    simp [mapInsert, hk, trueKeys, List.filter_cons]
    by_cases hb : b1 = true
    · simp [hb]
      have := trueKeys_mapInsert_false rest s hr
      simpa [trueKeys] using this
    · simp [Bool.eq_false_iff.mpr hb]
      have := trueKeys_mapInsert_false rest s hr
      simpa [trueKeys] using this

theorem trueKeys_statesSubscript {S : Type} [DecidableEq S]
    (st : List (S × Bool)) (s : S) :
    trueKeys (statesSubscript st s).2 = trueKeys st := by
  unfold statesSubscript
  cases h : mapFind st s with
  | some v => rfl
  | none => exact trueKeys_mapInsert_false st s h

theorem flagOf_false_cases {S : Type} [DecidableEq S]
    (st : List (S × Bool)) (s : S) (h : flagOf st s = false) :
    mapFind st s = none ∨ mapFind st s = some false := by
  unfold flagOf at h
  cases hf : mapFind st s with
  | none => exact Or.inl rfl
  | some v => rw [hf] at h; simp at h; simp [h]

theorem statesSubscript_of_flag_false {S : Type} [DecidableEq S]
    (st : List (S × Bool)) (s : S) (h : flagOf st s = false) :
    (statesSubscript st s).1 = false := by
  rw [statesSubscript_fst, h]

theorem addTransition_fail_left {S A : Type} [DecidableEq S]
    (m : StateMachine S A) (s t : S) (a : A) (hs : flagOf m.states s = false) :
    addTransition m s t a =
      (.error "State not registered",
        { m with states := (statesSubscript m.states s).2 }) := by
  unfold addTransition
  simp [statesSubscript_of_flag_false m.states s hs]

theorem addAction_fail {S A : Type} [DecidableEq S]
    (m : StateMachine S A) (s : S) (a : A) (hs : flagOf m.states s = false) :
    addAction m s a =
      (.error "State not registered",
        { m with states := (statesSubscript m.states s).2 }) := by
  unfold addAction
  simp [statesSubscript_of_flag_false m.states s hs]

theorem addTransition_fail_right {S A : Type} [DecidableEq S]
    (m : StateMachine S A) (s t : S) (a : A)
    (ht : flagOf m.states t = true) (hs : flagOf m.states s = false) :
    addTransition m t s a =
      (.error "State not registered",
        { m with states := (statesSubscript m.states s).2 }) := by
  unfold addTransition
  rw [statesSubscript_of_flag_true m.states t ht]
  simp [statesSubscript_of_flag_false m.states s hs]

theorem hasState_statesSubscript_self {S A : Type} [DecidableEq S]
    (m : StateMachine S A) (st : List (S × Bool)) (s : S)
    (h : m.states = (statesSubscript st s).2) : hasState m s = true := by
  unfold hasState
  rw [h, mapFind_statesSubscript_self]
  rfl

/-! ### Pool helper lemmas -/

theorem perm_cons_eraseIdx_of_get : ∀ (l : List Nat) (j : Nat) (a : Nat),
    l[j]? = some a → l.Perm (a :: l.eraseIdx j)
  | [], j, a, h => by simp at h
  | b :: l, 0, a, h => by
    simp at h
    subst h
    simp [List.eraseIdx]
  | b :: l, j + 1, a, h => by
    have ih := perm_cons_eraseIdx_of_get l j a (by simpa using h)
    simpa [List.eraseIdx] using (ih.cons b).trans (List.Perm.swap a b _)

theorem resizeLoop_perm {T : Type} (d : T) : ∀ (k : Nat) (p : Pool T) (ls : List Nat),
    (p.available ++ ls).Perm (List.range p.storage.length) →
    ((Pool.resizeLoop p d k).available ++ ls).Perm
      (List.range (Pool.resizeLoop p d k).storage.length)
  | 0, p, ls, h => h
  | k + 1, p, ls, h => by
    apply resizeLoop_perm d k
    simp only [List.length_append, List.length_cons, List.length_nil, Nat.zero_add]
    have h2 : ((p.available ++ [p.storage.length]) ++ ls).Perm
        ((p.available ++ ls) ++ [p.storage.length]) := by
      rw [List.append_assoc, List.append_assoc]
      exact List.Perm.append_left _ (@List.perm_append_comm _ [p.storage.length] ls)
    have h3 := h2.trans (h.append_right [p.storage.length])
    simpa [List.range_succ] using h3

theorem step_partitioned {T : Type} (sys : Pool.System T) (op : Pool.Op T)
    (h : Pool.partitioned sys) : Pool.partitioned (Pool.step sys op) := by
  cases op with
  | grow n dflt =>
    exact resizeLoop_perm dflt (n - sys.pool.storage.length) sys.pool sys.leases h
  | take c =>
    rcases havail : sys.pool.available with _ | ⟨i, rest⟩
    · simpa [Pool.partitioned, Pool.step, Pool.acquire, havail] using h
    · unfold Pool.partitioned at h
      rw [havail] at h
      simp [Pool.partitioned, Pool.step, Pool.acquire, havail, List.length_set]
      have h4 : ((rest ++ (sys.leases ++ [i]))).Perm (i :: (rest ++ sys.leases)) := by
        rw [← List.append_assoc]
        exact @List.perm_append_comm _ (rest ++ sys.leases) [i]
      exact h4.trans (by simpa using h)
  | release j =>
    rcases hj : sys.leases[j]? with _ | i
    · simpa [Pool.partitioned, Pool.step, List.get?_eq_getElem?, hj] using h
    · have hperm := perm_cons_eraseIdx_of_get sys.leases j i hj
      simp [Pool.partitioned, Pool.step, List.get?_eq_getElem?, hj, Pool.destroyObject]
      have h5 : (sys.pool.available ++ i :: sys.leases.eraseIdx j).Perm
          (sys.pool.available ++ sys.leases) :=
        List.Perm.append_left _ hperm.symm
      exact h5.trans h

theorem foldl_step_partitioned {T : Type} :
    ∀ (ops : List (Pool.Op T)) (sys : Pool.System T),
    Pool.partitioned sys → Pool.partitioned (ops.foldl Pool.step sys)
  | [], _, h => h
  | op :: ops, sys, h =>
    foldl_step_partitioned ops (Pool.step sys op) (step_partitioned sys op h)

/-! ### Serialization claims -/

/-- C2: writing any sequence of fixed-size values (each modelled by its raw
byte representation, sizes may differ) into an empty `DataBuffer` via
`operator<<` and then reading via `operator>>` with the same types (the same
byte sizes) in the same order returns exactly the written values and raises
no failure, leaving the buffer empty. -/
theorem serializeRoundTripSeq (vs : List (List Nat)) :
    readSeq (writeSeq DataBuffer.empty vs) (vs.map List.length) =
      (.ok vs, DataBuffer.empty) := by
  rw [writeSeq_eq vs DataBuffer.empty]
  have h := readSeq_join vs []
  simpa [DataBuffer.empty] using h

/-- C4: a fixed-size read of a type of size `k` from a buffer holding fewer
than `k` unconsumed bytes (including the empty buffer) fails with
`"Buffer underflow"` (the `BufferUnderflow` failure) and leaves the buffer —
hence its unconsumed byte count — exactly unchanged. -/
theorem read_underflow (b : DataBuffer) (k : Nat) (h : b.buffer.length < k) :
    DataBuffer.read b k = (.error "Buffer underflow", b) := by
  simp [DataBuffer.read, h]

theorem read_underflow_witness :
    DataBuffer.read ⟨[]⟩ 4 = (.error "Buffer underflow", ⟨[]⟩) :=
  read_underflow ⟨[]⟩ 4 (by decide)

/-- C5: writing any text value (its byte sequence `s`, empty included, with
`s.length` a representable `size_t`) into an empty `DataBuffer` via
`operator<<(const std::string&)` and reading via `operator>>(std::string&)`
returns the identical character sequence and raises no failure. -/
theorem text_roundtrip (s : List Nat) (h : s.length < 256 ^ sizeofSizeT) :
    readText (writeText DataBuffer.empty s) = (.ok s, DataBuffer.empty) := by
  unfold writeText
  set pfx := natToBytesLE s.length sizeofSizeT with hpfx
  have hlen : pfx.length = sizeofSizeT := length_natToBytesLE s.length sizeofSizeT
  have hb : DataBuffer.write (DataBuffer.write DataBuffer.empty pfx) s =
      ⟨pfx ++ s⟩ := by simp [DataBuffer.write, DataBuffer.empty]
  rw [hb]
  have hread : DataBuffer.read ⟨pfx ++ s⟩ sizeofSizeT = (.ok pfx, ⟨s⟩) := by
    rw [← hlen]
    exact read_exact pfx s
  unfold readText
  rw [hread]
  have hdec : bytesToNatLE pfx = s.length := by
    rw [hpfx]
    exact bytesToNatLE_natToBytesLE sizeofSizeT s.length h
  simp [hdec, List.take_length, DataBuffer.empty]

theorem text_roundtrip_witness :
    readText (writeText DataBuffer.empty []) = (.ok [], DataBuffer.empty) ∧
    readText (writeText DataBuffer.empty [104, 105]) =
      (.ok [104, 105], DataBuffer.empty) :=
  ⟨text_roundtrip [] (by decide), text_roundtrip [104, 105] (by decide)⟩

/-- C1 counterexample: two concrete failing operations that do have an effect
on their component's state.  First, a buffer holding exactly the 8
length-prefix bytes announcing 5 text bytes followed by no text bytes:
`operator>>(std::string&)` fails with `"Buffer underflow"`, yet the byte
content HAS changed — the prefix was already consumed by the nested
`*this >> len`.  Second, on a machine with an empty states map,
`addTransition(0, 1, a)` fails with `"State not registered"`, yet the states
map HAS changed — `states[0]` default-inserted the key `0` with value
`false`. -/
theorem failure_partial_effect_cex :
    ((readText ⟨[5, 0, 0, 0, 0, 0, 0, 0]⟩).1 = .error "Buffer underflow" ∧
      (readText ⟨[5, 0, 0, 0, 0, 0, 0, 0]⟩).2 ≠ ⟨[5, 0, 0, 0, 0, 0, 0, 0]⟩) ∧
    ((addTransition (⟨0, [], [], []⟩ : StateMachine Nat Nat) 0 1 7).1 =
        .error "State not registered" ∧
      (addTransition (⟨0, [], [], []⟩ : StateMachine Nat Nat) 0 1 7).2.states ≠
        (⟨0, [], [], []⟩ : StateMachine Nat Nat).states) := by
  exact ⟨⟨rfl, by decide⟩, ⟨rfl, by decide⟩⟩

/-! ### State machine claims -/

theorem trueKeys_addTransition {S A : Type} [DecidableEq S]
    (m : StateMachine S A) (s t : S) (a : A) :
    trueKeys (addTransition m s t a).2.states = trueKeys m.states := by
  unfold addTransition
  by_cases h1 : (statesSubscript m.states s).1 = false
  · simp [h1, trueKeys_statesSubscript]
  · by_cases h2 : (statesSubscript (statesSubscript m.states s).2 t).1 = false
    · simp [h1, h2, trueKeys_statesSubscript]
    · simp [h1, h2, trueKeys_statesSubscript]

theorem trueKeys_addAction {S A : Type} [DecidableEq S]
    (m : StateMachine S A) (s : S) (a : A) :
    trueKeys (addAction m s a).2.states = trueKeys m.states := by
  unfold addAction
  by_cases h1 : (statesSubscript m.states s).1 = false
  · simp [h1, trueKeys_statesSubscript]
  · simp [h1, trueKeys_statesSubscript]

theorem addTransition_fail_fields {S A : Type} [DecidableEq S]
    (m : StateMachine S A) (s t : S) (a : A)
    (hfail : (addTransition m s t a).1 = .error "State not registered") :
    (addTransition m s t a).2.currentState = m.currentState ∧
    (addTransition m s t a).2.transitions = m.transitions ∧
    (addTransition m s t a).2.stateActions = m.stateActions := by
  by_cases h1 : (statesSubscript m.states s).1 = false
  · simp [addTransition, h1]
  · by_cases h2 : (statesSubscript (statesSubscript m.states s).2 t).1 = false
    · simp [addTransition, h1, h2]
    · simp [addTransition, h1, h2] at hfail

theorem addAction_fail_fields {S A : Type} [DecidableEq S]
    (m : StateMachine S A) (s : S) (a : A)
    (hfail : (addAction m s a).1 = .error "State not registered") :
    (addAction m s a).2.currentState = m.currentState ∧
    (addAction m s a).2.transitions = m.transitions ∧
    (addAction m s a).2.stateActions = m.stateActions := by
  by_cases h1 : (statesSubscript m.states s).1 = false
  · simp [addAction, h1]
  · simp [addAction, h1] at hfail

/-- C1 (amended): every failing operation of the three core components has no
effect on the component's state, with two exceptions exhibited by the
counterexample.  Precisely: a failed fixed-size read leaves the buffer
untouched; a failed `readText` leaves the buffer untouched (when the
length-prefix read itself fails) or with exactly the `sizeof(size_t)` prefix
bytes consumed (when it fails at the body check); a failed `acquire` leaves
the pool untouched; a failed `addTransition`/`addAction` leaves
`currentState`, the transition map, the action map and the set of
`addState`-registered states (keys flagged `true`) unchanged, though it may
insert the checked states-map keys with flag `false`; a failed `transitionTo`
executes no action and leaves the machine untouched; a failed `update`
executes no action and leaves the machine untouched. -/
theorem failure_effects_amended {S A T : Type} [DecidableEq S]
    (b c : DataBuffer) (k : Nat) (p : Pool T) (v : T)
    (m : StateMachine S A) (s t u w : S) (a1 a2 : A) :
    ((DataBuffer.read b k).1 = .error "Buffer underflow" →
      (DataBuffer.read b k).2 = b) ∧
    ((readText c).1 = .error "Buffer underflow" →
      (readText c).2 = c ∨ (readText c).2 = ⟨c.buffer.drop sizeofSizeT⟩) ∧
    ((Pool.acquire p v).1 = .error "Pool is empty" →
      (Pool.acquire p v).2 = p) ∧
    ((addTransition m s t a1).1 = .error "State not registered" →
      (addTransition m s t a1).2.currentState = m.currentState ∧
      (addTransition m s t a1).2.transitions = m.transitions ∧
      (addTransition m s t a1).2.stateActions = m.stateActions ∧
      trueKeys (addTransition m s t a1).2.states = trueKeys m.states) ∧
    ((addAction m u a2).1 = .error "State not registered" →
      (addAction m u a2).2.currentState = m.currentState ∧
      (addAction m u a2).2.transitions = m.transitions ∧
      (addAction m u a2).2.stateActions = m.stateActions ∧
      trueKeys (addAction m u a2).2.states = trueKeys m.states) ∧
    ((transitionTo m w).1 = .error "Invalid transition" →
      (transitionTo m w).2.1 = [] ∧ (transitionTo m w).2.2 = m) ∧
    ((update m).1 = .error "No action for current state" →
      (update m).2.1 = [] ∧ (update m).2.2 = m) := by
  refine ⟨?_, ?_, ?_, ?_, ?_, ?_, ?_⟩
  · intro hfail
    rcases read_split b k with ⟨_, heq⟩ | ⟨_, heq⟩
    · rw [heq]
    · rw [heq] at hfail
      simp at hfail
  · intro hfail
    rcases read_split c sizeofSizeT with ⟨_, heq⟩ | ⟨_, heq⟩
    · left
      unfold readText
      rw [heq]
    · right
      unfold readText at hfail ⊢
      rw [heq] at hfail ⊢
      by_cases hlen : (List.drop sizeofSizeT c.buffer).length <
          bytesToNatLE (List.take sizeofSizeT c.buffer)
      · rw [List.length_drop] at hlen
        simp [hlen]
      · rw [List.length_drop] at hlen
        simp [hlen] at hfail
  · intro hfail
    rcases h : p.available with _ | ⟨i, rest⟩
    · simp [Pool.acquire, h]
    · simp [Pool.acquire, h] at hfail
  · intro hfail
    obtain ⟨hc, ht, ha⟩ := addTransition_fail_fields m s t a1 hfail
    exact ⟨hc, ht, ha, trueKeys_addTransition m s t a1⟩
  · intro hfail
    obtain ⟨hc, ht, ha⟩ := addAction_fail_fields m u a2 hfail
    exact ⟨hc, ht, ha, trueKeys_addAction m u a2⟩
  · intro hfail
    cases hf : mapFind m.transitions (m.currentState, w) with
    | none => simp [transitionTo, hf]
    | some a => simp [transitionTo, hf] at hfail
  · intro hfail
    cases hf : mapFind m.stateActions m.currentState with
    | none => simp [update, hf]
    | some a => simp [update, hf] at hfail

theorem failure_effects_amended_witness :
    (DataBuffer.read ⟨[1]⟩ 4).2 = ⟨[1]⟩ ∧
    ((readText ⟨[5, 0, 0, 0, 0, 0, 0, 0]⟩).2 = ⟨[5, 0, 0, 0, 0, 0, 0, 0]⟩ ∨
      (readText ⟨[5, 0, 0, 0, 0, 0, 0, 0]⟩).2 =
        ⟨(DataBuffer.mk [5, 0, 0, 0, 0, 0, 0, 0]).buffer.drop sizeofSizeT⟩) ∧
    (Pool.acquire (⟨[10], []⟩ : Pool Nat) 5).2 = ⟨[10], []⟩ ∧
    ((addTransition (⟨0, [], [], []⟩ : StateMachine Nat Nat) 0 1 7).2.currentState =
        (⟨0, [], [], []⟩ : StateMachine Nat Nat).currentState ∧
      (addTransition (⟨0, [], [], []⟩ : StateMachine Nat Nat) 0 1 7).2.transitions =
        (⟨0, [], [], []⟩ : StateMachine Nat Nat).transitions ∧
      (addTransition (⟨0, [], [], []⟩ : StateMachine Nat Nat) 0 1 7).2.stateActions =
        (⟨0, [], [], []⟩ : StateMachine Nat Nat).stateActions ∧
      trueKeys (addTransition (⟨0, [], [], []⟩ : StateMachine Nat Nat) 0 1 7).2.states =
        trueKeys (⟨0, [], [], []⟩ : StateMachine Nat Nat).states) ∧
    ((addAction (⟨0, [], [], []⟩ : StateMachine Nat Nat) 0 7).2.currentState =
        (⟨0, [], [], []⟩ : StateMachine Nat Nat).currentState ∧
      (addAction (⟨0, [], [], []⟩ : StateMachine Nat Nat) 0 7).2.transitions =
        (⟨0, [], [], []⟩ : StateMachine Nat Nat).transitions ∧
      (addAction (⟨0, [], [], []⟩ : StateMachine Nat Nat) 0 7).2.stateActions =
        (⟨0, [], [], []⟩ : StateMachine Nat Nat).stateActions ∧
      trueKeys (addAction (⟨0, [], [], []⟩ : StateMachine Nat Nat) 0 7).2.states =
        trueKeys (⟨0, [], [], []⟩ : StateMachine Nat Nat).states) ∧
    ((transitionTo (⟨0, [], [], []⟩ : StateMachine Nat Nat) 2).2.1 = [] ∧
      (transitionTo (⟨0, [], [], []⟩ : StateMachine Nat Nat) 2).2.2 =
        ⟨0, [], [], []⟩) ∧
    ((update (⟨0, [], [], []⟩ : StateMachine Nat Nat)).2.1 = [] ∧
      (update (⟨0, [], [], []⟩ : StateMachine Nat Nat)).2.2 = ⟨0, [], [], []⟩) := by
  have h := failure_effects_amended ⟨[1]⟩ ⟨[5, 0, 0, 0, 0, 0, 0, 0]⟩ 4
    (⟨[10], []⟩ : Pool Nat) 5 (⟨0, [], [], []⟩ : StateMachine Nat Nat) 0 1 0 2 7 7
  exact ⟨h.1 rfl, h.2.1 rfl, h.2.2.1 rfl, h.2.2.2.1 rfl, h.2.2.2.2.1 rfl,
    h.2.2.2.2.2.1 rfl, h.2.2.2.2.2.2 rfl⟩

/-- C3: `transitionTo(target)` with no registered edge `(currentState,
target)` fails with `"Invalid transition"` (the `InvalidTransition` failure)
and leaves the machine — in particular `currentState` — unchanged; with a
registered edge carrying action `a` it executes exactly that action, exactly
once (execution trace `[a]`), and then sets `currentState` to the target. -/
theorem transitionTo_spec {S A : Type} [DecidableEq S] (m : StateMachine S A) (t : S) :
    (hasTransition m m.currentState t = false →
      transitionTo m t = (.error "Invalid transition", [], m)) ∧
    (∀ a, mapFind m.transitions (m.currentState, t) = some a →
      transitionTo m t = (.ok (), [a], { m with currentState := t })) := by
  constructor
  · intro h
    unfold transitionTo
    cases hf : mapFind m.transitions (m.currentState, t) with
    | none => rfl
    | some a => simp [hasTransition, hf] at h
  · intro a ha
    unfold transitionTo
    rw [ha]

theorem transitionTo_spec_witness :
    transitionTo (⟨0, [], [((0, 1), 7)], [(0, true), (1, true)]⟩ :
        StateMachine Nat Nat) 2 =
      (.error "Invalid transition", [],
        ⟨0, [], [((0, 1), 7)], [(0, true), (1, true)]⟩) ∧
    transitionTo (⟨0, [], [((0, 1), 7)], [(0, true), (1, true)]⟩ :
        StateMachine Nat Nat) 1 =
      (.ok (), [7], ⟨1, [], [((0, 1), 7)], [(0, true), (1, true)]⟩) := by
  constructor
  · exact (transitionTo_spec (⟨0, [], [((0, 1), 7)], [(0, true), (1, true)]⟩ :
      StateMachine Nat Nat) 2).1 (by decide)
  · exact (transitionTo_spec (⟨0, [], [((0, 1), 7)], [(0, true), (1, true)]⟩ :
      StateMachine Nat Nat) 1).2 7 (by decide)

/-- C10 counterexample: take `s = 0` and `t = 1`, both never added.  The call
`addTransition(t, s, a)` does fail with `"State not registered"`, but because
`||` short-circuits after `!states[t]`, the key `s` is NOT inserted into the
states map, so `hasState(s)` is still `false` after the failed call —
contradicting the claim that `hasState(s)` returns `true` after any of the
three failed calls. -/
theorem addTransition_shortcircuit_cex :
    (addTransition (⟨0, [], [], []⟩ : StateMachine Nat Nat) 1 0 7).1 =
      .error "State not registered" ∧
    hasState (addTransition (⟨0, [], [], []⟩ : StateMachine Nat Nat) 1 0 7).2 0 =
      false := by
  exact ⟨rfl, rfl⟩

/-- C10 (amended): for a state token `s` never added (its `states` flag is not
`true`), `addTransition(s, t, a)` and `addAction(s, a)` fail with
`"State not registered"` and afterwards `hasState(s)` is `true` (the failed
call inserted `s` with flag `false`); `addTransition(t, s, a)` also fails, and
`hasState(s)` is `true` afterwards provided `t`'s flag was `true` (with `t`
unregistered the short-circuit `||` never touches `s`); and further
`addTransition`/`addAction` calls naming `s` as a checked state still fail. -/
theorem unregistered_state_amended {S A : Type} [DecidableEq S]
    (m : StateMachine S A) (s t : S) (a : A)
    (hs : flagOf m.states s = false) :
    ((addTransition m s t a).1 = .error "State not registered" ∧
      hasState (addTransition m s t a).2 s = true ∧
      flagOf (addTransition m s t a).2.states s = false) ∧
    ((addAction m s a).1 = .error "State not registered" ∧
      hasState (addAction m s a).2 s = true ∧
      flagOf (addAction m s a).2.states s = false) ∧
    (addTransition m t s a).1 = .error "State not registered" ∧
    (flagOf m.states t = true → hasState (addTransition m t s a).2 s = true) ∧
    (addTransition (addTransition m s t a).2 s t a).1 =
      .error "State not registered" ∧
    (addAction (addAction m s a).2 s a).1 = .error "State not registered" := by
  have hA := addTransition_fail_left m s t a hs
  have hB := addAction_fail m s a hs
  have hsA : (addTransition m s t a).2.states = (statesSubscript m.states s).2 := by
    rw [hA]
  have hsB : (addAction m s a).2.states = (statesSubscript m.states s).2 := by
    rw [hB]
  have hflagA : flagOf (addTransition m s t a).2.states s = false := by
    rw [hsA, flagOf_statesSubscript]
    exact hs
  have hflagB : flagOf (addAction m s a).2.states s = false := by
    rw [hsB, flagOf_statesSubscript]
    exact hs
  refine ⟨⟨?_, ?_, hflagA⟩, ⟨?_, ?_, hflagB⟩, ?_, ?_, ?_, ?_⟩
  · rw [hA]
  · exact hasState_statesSubscript_self _ m.states s hsA
  · rw [hB]
  · exact hasState_statesSubscript_self _ m.states s hsB
  · by_cases ht : flagOf m.states t = true
    · rw [addTransition_fail_right m s t a ht hs]
    · have ht2 : flagOf m.states t = false := by
        cases hvt : flagOf m.states t
        · rfl
        · exact absurd hvt ht
      rw [addTransition_fail_left m t s a ht2]
  · intro ht
    have hR := addTransition_fail_right m s t a ht hs
    exact hasState_statesSubscript_self _ m.states s (by rw [hR])
  · rw [addTransition_fail_left _ s t a hflagA]
  · rw [addAction_fail _ s a hflagB]

theorem unregistered_state_amended_witness :
    (addTransition (⟨0, [], [], [(1, true)]⟩ : StateMachine Nat Nat) 0 1 7).1 =
      .error "State not registered" ∧
    hasState (addTransition (⟨0, [], [], [(1, true)]⟩ :
      StateMachine Nat Nat) 0 1 7).2 0 = true ∧
    hasState (addTransition (⟨0, [], [], [(1, true)]⟩ :
      StateMachine Nat Nat) 1 0 7).2 0 = true := by
  have h := unregistered_state_amended
    (⟨0, [], [], [(1, true)]⟩ : StateMachine Nat Nat) 0 1 7 (by decide)
  exact ⟨h.1.1, h.1.2.1, h.2.2.2.1 (by decide)⟩

/-! ### Pool claims -/

/-- C6: `acquire` reconstructs the slot value from the supplied construction
arguments: whatever the slot held before (any mutation made during a prior
lease of the same slot, `p.storage` being arbitrary here), after `acquire` the
leased slot holds exactly the value built from the supplied arguments, so no
prior mutation is observable through the returned lease. -/
theorem acquire_reconstructs {T : Type} (p : Pool T) (v : T) (i : Nat)
    (rest : List Nat) (h : p.available = i :: rest) (hi : i < p.storage.length) :
    (Pool.acquire p v).1 = .ok ⟨true, i⟩ ∧
    (Pool.acquire p v).2.storage[i]? = some v := by
  constructor
  · simp [Pool.acquire, h]
  · simp [Pool.acquire, h, List.getElem?_set, hi]

theorem acquire_reconstructs_witness :
    (Pool.acquire (⟨[10, 20], [1, 0]⟩ : Pool Nat) 99).1 = .ok ⟨true, 1⟩ ∧
    (Pool.acquire (⟨[10, 20], [1, 0]⟩ : Pool Nat) 99).2.storage[1]? = some 99 :=
  acquire_reconstructs ⟨[10, 20], [1, 0]⟩ 99 1 [0] rfl (by decide)

/-- C7: `acquire` fails — with `"Pool is empty"`, the `PoolExhausted` failure
— exactly when the free-index queue is empty at call time, and on that failure
it returns no lease and leaves the pool completely unchanged. -/
theorem acquire_exhausted_iff {T : Type} (p : Pool T) (v : T) :
    ((Pool.acquire p v).1 = .error "Pool is empty" ↔ p.available = []) ∧
    (p.available = [] → Pool.acquire p v = (.error "Pool is empty", p)) := by
  rcases h : p.available with _ | ⟨i, rest⟩ <;> simp [Pool.acquire, h]

theorem acquire_exhausted_iff_witness :
    Pool.acquire (⟨[10], []⟩ : Pool Nat) 5 = (.error "Pool is empty", ⟨[10], []⟩) :=
  (acquire_exhausted_iff ⟨[10], []⟩ 5).2 rfl

/-- C8: after any sequence of grow (`resize`), `acquire` and lease-release
operations starting from a freshly constructed pool, the free queue and the
outstanding leases partition the slot indices: every index
`0 .. storage.length - 1` belongs to exactly one of them. -/
theorem pool_slot_partition {T : Type} (ops : List (Pool.Op T)) :
    Pool.partitioned (Pool.run ops) := by
  unfold Pool.run
  exact foldl_step_partitioned ops ⟨⟨[], []⟩, []⟩ (by simp [Pool.partitioned])

/-- C9: moving a `Pool::Object` transfers ownership: the moved-from lease has
a null pool pointer, destroying it pushes no index onto the free queue and
leaves the pool unchanged, the moved-to lease is identical to the original,
and destroying it (the final owner) — even after destroying the moved-from
husk first — pushes the slot index onto the free queue exactly once. -/
theorem move_transfers_ownership {T : Type} (p : Pool T) (o : PoolObject)
    (h : o.poolPtr = true) :
    (Pool.moveObject o).2.poolPtr = false ∧
    Pool.destroyObject p (Pool.moveObject o).2 = p ∧
    (Pool.moveObject o).1 = o ∧
    Pool.destroyObject p (Pool.moveObject o).1 =
      ⟨p.storage, p.available ++ [o.index]⟩ ∧
    Pool.destroyObject (Pool.destroyObject p (Pool.moveObject o).2)
        (Pool.moveObject o).1 = ⟨p.storage, p.available ++ [o.index]⟩ := by
  obtain ⟨op, oi⟩ := o
  simp at h
  subst h
  simp [Pool.moveObject, Pool.destroyObject]

theorem move_transfers_ownership_witness :
    Pool.destroyObject (⟨[10], [0]⟩ : Pool Nat) (Pool.moveObject ⟨true, 2⟩).2 =
      ⟨[10], [0]⟩ ∧
    Pool.destroyObject (⟨[10], [0]⟩ : Pool Nat) (Pool.moveObject ⟨true, 2⟩).1 =
      ⟨[10], [0, 2]⟩ := by
  have h := move_transfers_ownership (⟨[10], [0]⟩ : Pool Nat) ⟨true, 2⟩ rfl
  exact ⟨h.2.1, h.2.2.2.1⟩

end Libftpp
